import Mathlib

/-!
# Verification of the voiceguard audio-analysis core

Shallow embedding of the voiceguard pipeline and proofs about it.

Conventions used throughout:
* audio sample values are opaque payloads for the segmentation claims and are
  modelled as `Int`; for the numeric DSP claims (VAD, heuristic backend) float
  values are modelled as real numbers;
* float NaN sentinels are modelled by `Option` (`none` = NaN);
* numpy arrays become Lean lists; `arr[a:b]` becomes `(l.drop a).take (b - a)`;
* Python exceptions become `Except String`.
-/

/-! ## Windowing (src/voiceguard/windowing.py) -/

/-- Function `estimate_num_windows` from windowing.py, over `Int` as in Python.
Python floor division `//` agrees with `Int` division on the non-negative
operands reached in the final branch. -/
def estimate_num_windows (num_samples window_samples hop_samples : Int) : Int :=
  if num_samples ≤ 0 ∨ window_samples ≤ 0 ∨ hop_samples ≤ 0 then 0
  else if num_samples < window_samples then 1
  else 1 + (num_samples - window_samples) / hop_samples

/-- Function `iter_windows` from windowing.py: the full (eager) list of
`(start_sample, window)` pairs the Python generator yields.
`range(0, size - window + 1, hop)` yields `i * hop` for
`i < (size - window) / hop + 1` when `size ≥ window`. -/
def iter_windows (audio : List Int) (window_samples hop_samples : Nat) :
    List (Nat × List Int) :=
  if audio.length = 0 then []
  else if audio.length < window_samples then
    [(0, audio ++ List.replicate (window_samples - audio.length) 0)]
  else
    (List.range ((audio.length - window_samples) / hop_samples + 1)).map
      (fun i => (i * hop_samples, (audio.drop (i * hop_samples)).take window_samples))

/-- Mutable state of `StreamWindowProcessor` (windowing.py). The window/hop
configuration is passed to `push` explicitly instead of being stored. -/
structure StreamWindowProcessor where
  buffer : List Int
  buffer_start : Nat
  total_samples : Nat
  next_window_start : Nat
deriving Repr, DecidableEq

/-- Fresh processor, as built by `StreamWindowProcessor.__init__`. -/
def StreamWindowProcessor.init : StreamWindowProcessor :=
  ⟨[], 0, 0, 0⟩

/-- The `while` loop inside `StreamWindowProcessor.push`, with explicit fuel
(the Python loop is unbounded; any fuel above the number of emitted windows
gives the exact behaviour of the loop, and `push` passes enough).  The defensive
`start_offset < 0` branch and the `end_offset > buffer.size` break of the
source are kept. -/
def StreamWindowProcessor.pushLoop (window_samples hop_samples : Nat) :
    Nat → StreamWindowProcessor → StreamWindowProcessor × List (Nat × List Int)
  | 0, st => (st, [])
  | fuel + 1, st =>
    if st.next_window_start + window_samples ≤ st.total_samples then
      -- "if start_offset < 0: start_offset = 0; next_window_start = buffer_start":
      -- with Nat truncated subtraction the offset clamps to 0 by itself, and the
      -- cursor reset is made explicit here.
      let st1 := if st.next_window_start < st.buffer_start
        then { st with next_window_start := st.buffer_start } else st
      let startOffset := st1.next_window_start - st1.buffer_start
      let endOffset := startOffset + window_samples
      if st1.buffer.length < endOffset then (st1, [])
      else
        let window := (st1.buffer.drop startOffset).take window_samples
        let emitted : Nat × List Int := (st1.next_window_start, window)
        let st2 := { st1 with next_window_start := st1.next_window_start + hop_samples }
        let rest := StreamWindowProcessor.pushLoop window_samples hop_samples fuel st2
        (rest.1, emitted :: rest.2)
    else (st, [])

/-- Method `StreamWindowProcessor.push` from windowing.py. -/
def StreamWindowProcessor.push (window_samples hop_samples : Nat)
    (st : StreamWindowProcessor) (samples : List Int) :
    StreamWindowProcessor × List (Nat × List Int) :=
  if samples.length = 0 then (st, [])
  else
    let st1 : StreamWindowProcessor :=
      { st with buffer := st.buffer ++ samples,
                total_samples := st.total_samples + samples.length }
    let looped := StreamWindowProcessor.pushLoop window_samples hop_samples
        (st1.total_samples + 1) st1
    let st2 := looped.1
    let trim := st2.next_window_start - st2.buffer_start
    let st3 := if 0 < trim then
        { st2 with buffer := st2.buffer.drop trim, buffer_start := st2.buffer_start + trim }
      else st2
    (st3, looped.2)

/-- Feed a whole list of chunks to the stream processor, concatenating the
emitted windows in order. -/
def StreamWindowProcessor.pushAll (window_samples hop_samples : Nat)
    (st : StreamWindowProcessor) :
    List (List Int) → StreamWindowProcessor × List (Nat × List Int)
  | [] => (st, [])
  | c :: cs =>
    let first := StreamWindowProcessor.push window_samples hop_samples st c
    let rest := StreamWindowProcessor.pushAll window_samples hop_samples first.1 cs
    (rest.1, first.2 ++ rest.2)

/-- Number of full windows that fit in a signal of length `n`. -/
def fitCount (n w h : Nat) : Nat :=
  if w ≤ n then (n - w) / h + 1 else 0

/-- The `(start, slice)` pair of the `i`-th window. -/
def sliceAt (sig : List Int) (w h i : Nat) : Nat × List Int :=
  (i * h, (sig.drop (i * h)).take w)

/-- Windows number `k, k+1, …` (up to the last full one) of `sig`. -/
def windowsFrom (sig : List Int) (w h k : Nat) : List (Nat × List Int) :=
  (List.range (fitCount sig.length w h - k)).map (fun j => sliceAt sig w h (k + j))

/-- Canonical processor state after consuming exactly the samples of `sig`. -/
def canonState (w h : Nat) (sig : List Int) : StreamWindowProcessor :=
  ⟨sig.drop (fitCount sig.length w h * h), fitCount sig.length w h * h,
    sig.length, fitCount sig.length w h * h⟩

lemma fitCount_iff {n w h : Nat} (hh : 0 < h) (k : Nat) :
    k * h + w ≤ n ↔ k < fitCount n w h := by
  unfold fitCount
  split
  · next hwn =>
    have : (k * h + w ≤ n) ↔ (k * h ≤ n - w) := by omega
    rw [this, Nat.lt_succ_iff, Nat.le_div_iff_mul_le hh]
  · next hwn => constructor <;> intro h' <;> omega

lemma fitCount_mul_le {n w h : Nat} (hh : 0 < h) (hhw : h ≤ w) :
    fitCount n w h * h ≤ n := by
  unfold fitCount
  split
  · next hwn =>
    have h1 : (n - w) / h * h ≤ n - w := Nat.div_mul_le_self _ _
    have : ((n - w) / h + 1) * h = (n - w) / h * h + h := by ring
    omega
  · simp

lemma fitCount_mono {n m w h : Nat} (hnm : n ≤ m) :
    fitCount n w h ≤ fitCount m w h := by
  unfold fitCount
  split
  · next hwn =>
    rw [if_pos (le_trans hwn hnm)]
    have := Nat.div_le_div_right (c := h) (Nat.sub_le_sub_right hnm w)
    omega
  · omega

lemma fitCount_le_length {n w h : Nat} (hw : 0 < w) :
    fitCount n w h ≤ n := by
  unfold fitCount
  split
  · next hwn =>
    have := Nat.div_le_self (n - w) h
    omega
  · omega

lemma windowsFrom_stop (sig : List Int) (w h k : Nat)
    (hk : fitCount sig.length w h ≤ k) : windowsFrom sig w h k = [] := by
  unfold windowsFrom
  rw [Nat.sub_eq_zero_of_le hk]
  simp

lemma windowsFrom_cons (sig : List Int) (w h k : Nat)
    (hk : k < fitCount sig.length w h) :
    windowsFrom sig w h k = sliceAt sig w h k :: windowsFrom sig w h (k + 1) := by
  unfold windowsFrom
  obtain ⟨m, hm⟩ : ∃ m, fitCount sig.length w h - k = m + 1 :=
    ⟨fitCount sig.length w h - k - 1, by omega⟩
  rw [hm, List.range_succ_eq_map]
  have hm' : fitCount sig.length w h - (k + 1) = m := by omega
  rw [hm']
  simp only [List.map_cons, List.map_map]
  congr 1
  apply List.map_congr_left
  intro j _
  show sliceAt sig w h (k + (j + 1)) = sliceAt sig w h (k + 1 + j)
  congr 1
  omega

lemma pushLoop_eq (w h : Nat) (hh : 0 < h) (sig : List Int)
    (b k fuel : Nat) (hbk : b ≤ k * h)
    (hK : k ≤ fitCount sig.length w h)
    (hfuel : fitCount sig.length w h - k < fuel) :
    StreamWindowProcessor.pushLoop w h fuel ⟨sig.drop b, b, sig.length, k * h⟩ =
      (⟨sig.drop b, b, sig.length, fitCount sig.length w h * h⟩, windowsFrom sig w h k) := by
  induction fuel generalizing k with
  | zero => omega
  | succ f ih =>
    by_cases hcond : k * h + w ≤ sig.length
    · have hkK : k < fitCount sig.length w h := (fitCount_iff hh k).mp hcond
      have hbn : b ≤ sig.length := by omega
      simp only [StreamWindowProcessor.pushLoop]
      rw [if_pos hcond]
      have hlt : ¬ k * h < b := by omega
      simp only [if_neg hlt, List.length_drop]
      have hbreak : ¬ sig.length - b < k * h - b + w := by omega
      rw [if_neg hbreak]
      have hmul : k * h ≤ (k + 1) * h := Nat.mul_le_mul_right h (Nat.le_succ k)
      have hkh : k * h + h = (k + 1) * h := by ring
      rw [hkh, ih (k + 1) (by omega) hkK (by omega)]
      rw [windowsFrom_cons sig w h k hkK]
      have hdrop : (List.drop b sig).drop (k * h - b) = List.drop (k * h) sig := by
        rw [List.drop_drop]
        congr 1
        omega
      simp [sliceAt, hdrop]
    · have hge : fitCount sig.length w h ≤ k := by
        rcases Nat.lt_or_ge k (fitCount sig.length w h) with hlt | hge
        · exact absurd ((fitCount_iff hh k).mpr hlt) hcond
        · exact hge
      have hk : k = fitCount sig.length w h := le_antisymm hK hge
      simp only [StreamWindowProcessor.pushLoop]
      rw [if_neg hcond, windowsFrom_stop sig w h k hge, hk]

lemma push_eq (w h : Nat) (hw : 0 < w) (hh : 0 < h) (hhw : h ≤ w) (sig c : List Int) :
    StreamWindowProcessor.push w h (canonState w h sig) c =
      (canonState w h (sig ++ c),
        windowsFrom (sig ++ c) w h (fitCount sig.length w h)) := by
  by_cases hc : c.length = 0
  · have hc' : c = [] := List.length_eq_zero.mp hc
    subst hc'
    rw [List.append_nil, windowsFrom_stop _ _ _ _ (le_refl _)]
    simp [StreamWindowProcessor.push]
  · have hK1le : fitCount sig.length w h * h ≤ sig.length := fitCount_mul_le hh hhw
    have hmono : fitCount sig.length w h ≤ fitCount (sig ++ c).length w h := by
      apply fitCount_mono
      simp
    have hhmul : fitCount sig.length w h * h ≤ fitCount (sig ++ c).length w h * h :=
      Nat.mul_le_mul_right h hmono
    have hK2len : fitCount (sig ++ c).length w h ≤ (sig ++ c).length :=
      fitCount_le_length hw
    have hbuf : List.drop (fitCount sig.length w h * h) sig ++ c
        = List.drop (fitCount sig.length w h * h) (sig ++ c) :=
      (List.drop_append_of_le_length hK1le).symm
    simp only [StreamWindowProcessor.push, canonState, if_neg hc]
    rw [hbuf, ← List.length_append]
    rw [pushLoop_eq w h hh (sig ++ c) (fitCount sig.length w h * h)
      (fitCount sig.length w h) ((sig ++ c).length + 1) (le_refl _) hmono (by omega)]
    simp only []
    by_cases htrim : 0 < fitCount (sig ++ c).length w h * h - fitCount sig.length w h * h
    · rw [if_pos htrim]
      simp only [canonState, List.drop_drop, Nat.sub_add_cancel hhmul,
        Nat.add_sub_cancel' hhmul]
    · rw [if_neg htrim]
      have heq : fitCount (sig ++ c).length w h * h = fitCount sig.length w h * h := by
        omega
      simp only [canonState, heq]

lemma sliceAt_append (mid rest : List Int) (w h i : Nat) (hh : 0 < h)
    (hi : i < fitCount mid.length w h) :
    sliceAt (mid ++ rest) w h i = sliceAt mid w h i := by
  have hfit : i * h + w ≤ mid.length := (fitCount_iff hh i).mpr hi
  unfold sliceAt
  congr 1
  rw [List.drop_append_of_le_length (by omega)]
  rw [List.take_append_of_le_length]
  rw [List.length_drop]
  omega

lemma windowsFrom_split (sig : List Int) (w h k m : Nat)
    (hkm : k ≤ m) (hm : m ≤ fitCount sig.length w h) :
    windowsFrom sig w h k =
      (List.range (m - k)).map (fun j => sliceAt sig w h (k + j)) ++
        windowsFrom sig w h m := by
  unfold windowsFrom
  have hsplit : fitCount sig.length w h - k = (m - k) + (fitCount sig.length w h - m) := by
    omega
  rw [hsplit, List.range_add, List.map_append, List.map_map]
  congr 1
  apply List.map_congr_left
  intro j _
  show sliceAt sig w h (k + (m - k + j)) = sliceAt sig w h (m + j)
  congr 1
  omega

lemma windowsFrom_append (mid rest : List Int) (w h k : Nat) (hh : 0 < h)
    (hk : k ≤ fitCount mid.length w h) :
    windowsFrom (mid ++ rest) w h k =
      windowsFrom mid w h k ++
        windowsFrom (mid ++ rest) w h (fitCount mid.length w h) := by
  have hmono : fitCount mid.length w h ≤ fitCount (mid ++ rest).length w h := by
    apply fitCount_mono
    simp
  rw [windowsFrom_split (mid ++ rest) w h k (fitCount mid.length w h) hk hmono]
  congr 1
  unfold windowsFrom
  apply List.map_congr_left
  intro j hj
  have hj' : j < fitCount mid.length w h - k := List.mem_range.mp hj
  exact sliceAt_append mid rest w h (k + j) hh (by omega)

lemma pushAll_eq (w h : Nat) (hw : 0 < w) (hh : 0 < h) (hhw : h ≤ w) :
    ∀ (cs : List (List Int)) (sig : List Int),
    StreamWindowProcessor.pushAll w h (canonState w h sig) cs =
      (canonState w h (sig ++ cs.flatten),
        windowsFrom (sig ++ cs.flatten) w h (fitCount sig.length w h))
  | [], sig => by
    simp only [StreamWindowProcessor.pushAll, List.flatten_nil, List.append_nil]
    rw [windowsFrom_stop _ _ _ _ (le_refl _)]
  | c :: cs, sig => by
    simp only [StreamWindowProcessor.pushAll]
    rw [push_eq w h hw hh hhw sig c]
    simp only []
    rw [pushAll_eq w h hw hh hhw cs (sig ++ c)]
    simp only [List.flatten_cons, ← List.append_assoc]
    congr 1
    rw [windowsFrom_append (sig ++ c) cs.flatten w h (fitCount sig.length w h) hh
      (fitCount_mono (by simp : sig.length ≤ (sig ++ c).length))]

lemma init_eq_canonState (w h : Nat) (hw : 0 < w) :
    StreamWindowProcessor.init = canonState w h [] := by
  unfold StreamWindowProcessor.init canonState fitCount
  rw [if_neg (by simp; omega)]
  simp

/-- Claim C1 (amended). For hop ≤ window (both positive), offline `iter_windows`
and streaming `push` over any chunking of the same signal produce identical
`(start_sample, window)` sequences, provided the signal is empty or at least
one window long. -/
theorem stream_equals_offline (w h : Nat) (hw : 0 < w) (hh : 0 < h) (hhw : h ≤ w)
    (cs : List (List Int)) (hlen : cs.flatten = [] ∨ w ≤ cs.flatten.length) :
    (StreamWindowProcessor.pushAll w h StreamWindowProcessor.init cs).2 =
      iter_windows cs.flatten w h := by
  rw [init_eq_canonState w h hw, pushAll_eq w h hw hh hhw cs []]
  simp only [List.nil_append]
  rcases hlen with hnil | hge
  · rw [hnil]
    simp [windowsFrom, iter_windows, fitCount]
  · have hlen0 : ¬ cs.flatten.length = 0 := by omega
    unfold iter_windows windowsFrom
    rw [if_neg hlen0, if_neg (by omega : ¬ cs.flatten.length < w)]
    unfold fitCount
    rw [if_pos hge]
    simp only [List.length_nil]
    rw [if_neg (by omega : ¬ w ≤ 0)]
    simp only [Nat.sub_zero]
    apply List.map_congr_left
    intro j _
    simp [sliceAt]

/-- Claim C1 counterexample. For a signal shorter than one window
(`window_samples = 2`, `hop_samples = 1`, signal `[1]` pushed as one chunk),
offline segmentation emits one zero-padded window while streaming emits
nothing, so the claimed equivalence fails in the shorter-than-one-window
case. -/
theorem stream_offline_differ_on_short_signal :
    (StreamWindowProcessor.pushAll 2 1 StreamWindowProcessor.init [[1]]).2 ≠
      iter_windows [1] 2 1 := by decide

/-- Witness for `stream_equals_offline` at a concrete configuration and
chunking. -/
theorem stream_equals_offline_witness :
    (StreamWindowProcessor.pushAll 2 1 StreamWindowProcessor.init [[1], [2, 3]]).2 =
      iter_windows ([[1], [2, 3]].flatten) 2 1 :=
  stream_equals_offline 2 1 (by decide) (by decide) (by decide) [[1], [2, 3]]
    (Or.inr (by decide))

/-- Claim C4. `estimate_num_windows` returns 0 for `n ≤ 0`, 1 for
`0 < n < window_samples`, `1 + (n - window_samples) / hop_samples` otherwise,
and equals the number of windows `iter_windows` yields on a signal of that
length. -/
theorem estimate_num_windows_correct (w h : Nat) (hw : 0 < w) (hh : 0 < h) :
    (∀ sig : List Int,
        estimate_num_windows sig.length w h = ((iter_windows sig w h).length : Int))
    ∧ (∀ n : Int, n ≤ 0 → estimate_num_windows n w h = 0)
    ∧ (∀ n : Int, 0 < n → n < w → estimate_num_windows n w h = 1)
    ∧ (∀ n : Int, (w : Int) ≤ n → estimate_num_windows n w h = 1 + (n - w) / h) := by
  refine ⟨?_, ?_, ?_, ?_⟩
  · intro sig
    unfold estimate_num_windows iter_windows
    by_cases h0 : sig.length = 0
    · rw [if_pos (by omega), if_pos h0]
      simp
    · rw [if_neg (by push_cast; omega)]
      by_cases hlt : sig.length < w
      · rw [if_pos (by push_cast; omega), if_neg h0, if_pos hlt]
        simp
      · rw [if_neg (by push_cast; omega), if_neg h0, if_neg hlt]
        simp only [List.length_map, List.length_range]
        have hcast : (sig.length : Int) - w = ((sig.length - w : Nat) : Int) := by omega
        rw [hcast, ← Int.natCast_div]
        push_cast
        omega
  · intro n hn
    unfold estimate_num_windows
    rw [if_pos (Or.inl hn)]
  · intro n hn hnw
    unfold estimate_num_windows
    rw [if_neg (by omega), if_pos hnw]
  · intro n hn
    unfold estimate_num_windows
    rw [if_neg (by omega), if_neg (by omega)]

/-- Witness for `estimate_num_windows_correct` at `window_samples = 3`,
`hop_samples = 2`, signal length 7. -/
theorem estimate_num_windows_correct_witness :
    estimate_num_windows (List.length [0, 1, 2, 3, 4, 5, 6] : Int) 3 2 =
      ((iter_windows [0, 1, 2, 3, 4, 5, 6] 3 2).length : Int) :=
  (estimate_num_windows_correct 3 2 (by decide) (by decide)).1 [0, 1, 2, 3, 4, 5, 6]

/-! ## Data model (src/voiceguard/types.py) -/

/-- Record `InferenceResult` from types.py, parametric in the float model (rationals
for the control-flow claims, reals for the DSP claims).  The float NaN
sentinel used for `p_fake`/`p_fake_smooth` on non-speech windows is modelled
by `none`. -/
structure InferenceResult (α : Type) where
  p_fake : Option α
  p_fake_smooth : Option α
  confidence : α
  is_speech : Bool
  indicators : List (String × α)
  reasons : List String
deriving Repr, DecidableEq

/-! ## Alert tracking (src/voiceguard/alerts.py) -/

structure AlertSegment where
  start_sec : ℚ
  end_sec : ℚ
deriving Repr, DecidableEq

/-- Mutable state of `AlertTracker` (alerts.py); float times and probabilities
are modelled as rationals. -/
structure AlertTracker where
  threshold : ℚ
  hold_sec : ℚ
  step_sec : ℚ
  above_sec : ℚ
  active : Bool
  active_start : ℚ
  segments : List AlertSegment
deriving Repr, DecidableEq

/-- Constructor `AlertTracker.__init__`. -/
def AlertTracker.init (threshold hold_sec step_sec : ℚ) : AlertTracker :=
  ⟨threshold, hold_sec, step_sec, 0, false, 0, []⟩

/-- Float `p >= t` where `p` may be the NaN sentinel (`none`): every
comparison with NaN is false. -/
def nanGe (p : Option ℚ) (t : ℚ) : Bool :=
  match p with
  | some v => decide (t ≤ v)
  | none => false

/-- Method `AlertTracker.update` from alerts.py: returns the updated tracker together
with the returned bool (`self._active`). -/
def AlertTracker.update (tr : AlertTracker) (t_start t_end : ℚ) (p : Option ℚ)
    (is_speech : Bool) : AlertTracker × Bool :=
  if is_speech = false then
    ({ tr with
        segments := if tr.active then tr.segments ++ [⟨tr.active_start, t_end⟩]
          else tr.segments,
        active := false, above_sec := 0 }, false)
  else if nanGe p tr.threshold then
    let above := tr.above_sec + tr.step_sec
    if tr.active = false ∧ tr.hold_sec ≤ above then
      ({ tr with
          above_sec := above, active := true,
          active_start := max t_start (t_end - above) }, true)
    else
      ({ tr with above_sec := above }, tr.active)
  else
    ({ tr with
        segments := if tr.active then tr.segments ++ [⟨tr.active_start, t_end⟩]
          else tr.segments,
        active := false, above_sec := 0 }, false)

/-- Method `AlertTracker.finalize` from alerts.py. -/
def AlertTracker.finalize (tr : AlertTracker) (t_end : ℚ) : AlertTracker :=
  { tr with
      segments := if tr.active then tr.segments ++ [⟨tr.active_start, t_end⟩]
        else tr.segments,
      active := false, above_sec := 0 }

/-- One call to `AlertTracker.update`. -/
structure UpdateCall where
  t_start : ℚ
  t_end : ℚ
  p : Option ℚ
  is_speech : Bool
deriving Repr, DecidableEq

/-- Run a sequence of `update` calls. -/
def runUpdates : AlertTracker → List UpdateCall → AlertTracker
  | tr, [] => tr
  | tr, c :: cs => runUpdates (tr.update c.t_start c.t_end c.p c.is_speech).1 cs

/-- The calls happen at non-decreasing times: starting from lower bound `t0`,
each call has `t_start ≤ t_end`, consecutive calls do not overlap, and the
final time `tfin` is no earlier than the last `t_end`. -/
def TimesMono : ℚ → List UpdateCall → ℚ → Prop
  | t0, [], tfin => t0 ≤ tfin
  | t0, c :: cs, tfin => t0 ≤ c.t_start ∧ c.t_start ≤ c.t_end ∧ TimesMono c.t_end cs tfin

instance : ∀ (t0 : ℚ) (calls : List UpdateCall) (tfin : ℚ),
    Decidable (TimesMono t0 calls tfin)
  | _, [], _ => by unfold TimesMono; infer_instance
  | t0, c :: cs, tfin => by
    unfold TimesMono
    have := instDecidableTimesMono c.t_end cs tfin
    infer_instance

/-- Segment list is well-formed: every segment has `start_sec ≤ end_sec`, and
consecutive segments are ordered and non-overlapping
(`end_sec ≤` next `start_sec`, hence also ordered by `start_sec`). -/
def SegsWF (l : List AlertSegment) : Prop :=
  (∀ s ∈ l, s.start_sec ≤ s.end_sec) ∧
    List.Chain' (fun a b => a.end_sec ≤ b.start_sec) l

/-- Auxiliary invariant: the segments are chained between `lo` and `hi`. -/
def SortedFrom : ℚ → List AlertSegment → ℚ → Prop
  | lo, [], hi => lo ≤ hi
  | lo, s :: rest, hi => lo ≤ s.start_sec ∧ s.start_sec ≤ s.end_sec ∧
      SortedFrom s.end_sec rest hi

lemma sortedFrom_mono_hi {lo hi hi' : ℚ} {l : List AlertSegment}
    (h : SortedFrom lo l hi) (hle : hi ≤ hi') : SortedFrom lo l hi' := by
  induction l generalizing lo with
  | nil => exact le_trans h hle
  | cons s rest ih => exact ⟨h.1, h.2.1, ih h.2.2⟩

lemma sortedFrom_snoc {lo hi a e : ℚ} {l : List AlertSegment}
    (h : SortedFrom lo l hi) (ha : hi ≤ a) (hae : a ≤ e) :
    SortedFrom lo (l ++ [⟨a, e⟩]) e := by
  induction l generalizing lo with
  | nil => exact ⟨le_trans h ha, hae, le_refl e⟩
  | cons s rest ih => exact ⟨h.1, h.2.1, ih h.2.2⟩

lemma sortedFrom_wf {lo hi : ℚ} {l : List AlertSegment}
    (h : SortedFrom lo l hi) : SegsWF l := by
  induction l generalizing lo with
  | nil => exact ⟨by simp, List.chain'_nil⟩
  | cons s rest ih =>
    obtain ⟨h1, h2, h3⟩ := h
    obtain ⟨hall, hchain⟩ := ih h3
    refine ⟨?_, ?_⟩
    · intro x hx
      rcases List.mem_cons.mp hx with rfl | hx
      · exact h2
      · exact hall x hx
    · rw [List.chain'_cons']
      refine ⟨?_, hchain⟩
      intro b hb
      cases rest with
      | nil => simp at hb
      | cons s2 rest2 =>
        simp only [List.head?_cons, Option.mem_def, Option.some.injEq] at hb
        subst hb
        exact h3.1

/-- Invariant carried through a run of `update` calls: `above_sec` is
non-negative and the closed segments are chained below the current time
(below `active_start` when a segment is open). -/
def TrackerInv (t0 t : ℚ) (tr : AlertTracker) : Prop :=
  0 ≤ tr.above_sec ∧
    (if tr.active then SortedFrom t0 tr.segments tr.active_start ∧ tr.active_start ≤ t
     else SortedFrom t0 tr.segments t)

lemma update_step_sec (tr : AlertTracker) (a b : ℚ) (p : Option ℚ) (sp : Bool) :
    (tr.update a b p sp).1.step_sec = tr.step_sec := by
  unfold AlertTracker.update
  split
  · rfl
  · split
    · dsimp only
      split
      · rfl
      · rfl
    · rfl

lemma trackerInv_update {t0 t : ℚ} {tr : AlertTracker} {c : UpdateCall}
    (hstep : 0 ≤ tr.step_sec) (hinv : TrackerInv t0 t tr)
    (h1 : t ≤ c.t_start) (h2 : c.t_start ≤ c.t_end) :
    TrackerInv t0 c.t_end (tr.update c.t_start c.t_end c.p c.is_speech).1 := by
  obtain ⟨habove, hrest⟩ := hinv
  have hclosed : TrackerInv t0 c.t_end
      { tr with
          segments := if tr.active then tr.segments ++ [⟨tr.active_start, c.t_end⟩]
            else tr.segments,
          active := false, above_sec := 0 } := by
    refine ⟨le_refl 0, ?_⟩
    simp only [TrackerInv]
    cases hact : tr.active with
    | true =>
      simp only [hact, if_true] at hrest ⊢
      obtain ⟨hsf, hle'⟩ := hrest
      simp only [Bool.false_eq_true, if_false]
      exact sortedFrom_snoc hsf (le_refl _) (by linarith)
    | false =>
      simp only [hact, Bool.false_eq_true, if_false] at hrest ⊢
      exact sortedFrom_mono_hi hrest (by linarith)
  unfold AlertTracker.update
  by_cases hsp : c.is_speech = false
  · rw [if_pos hsp]
    exact hclosed
  · rw [if_neg hsp]
    by_cases hge : nanGe c.p tr.threshold
    · rw [if_pos hge]
      by_cases hcond : tr.active = false ∧ tr.hold_sec ≤ tr.above_sec + tr.step_sec
      · rw [if_pos hcond]
        refine ⟨by simpa using by linarith, ?_⟩
        simp only [if_true]
        rw [hcond.1] at hrest
        simp only [Bool.false_eq_true, if_false] at hrest
        constructor
        · exact sortedFrom_mono_hi hrest (le_trans h1 (le_max_left _ _))
        · exact max_le h2 (by linarith)
      · rw [if_neg hcond]
        refine ⟨by simpa using by linarith, ?_⟩
        cases hact : tr.active with
        | true =>
          simp only [hact, if_true] at hrest ⊢
          exact ⟨hrest.1, by linarith [hrest.2]⟩
        | false =>
          simp only [hact, Bool.false_eq_true, if_false] at hrest ⊢
          exact sortedFrom_mono_hi hrest (by linarith)
    · rw [if_neg hge]
      exact hclosed

lemma trackerInv_finalize {t0 t tfin : ℚ} {tr : AlertTracker}
    (hinv : TrackerInv t0 t tr) (hle : t ≤ tfin) :
    SegsWF (tr.finalize tfin).segments := by
  obtain ⟨-, hrest⟩ := hinv
  unfold AlertTracker.finalize
  cases hact : tr.active with
  | true =>
    simp only [hact, if_true] at hrest ⊢
    obtain ⟨hsf, hle'⟩ := hrest
    exact sortedFrom_wf (sortedFrom_snoc hsf (le_refl _) (by linarith))
  | false =>
    simp only [hact, Bool.false_eq_true, if_false] at hrest ⊢
    exact sortedFrom_wf hrest

lemma trackerInv_run (t0 : ℚ) : ∀ (calls : List UpdateCall) (t tfin : ℚ)
    (tr : AlertTracker), 0 ≤ tr.step_sec → TrackerInv t0 t tr →
    TimesMono t calls tfin →
    SegsWF ((runUpdates tr calls).finalize tfin).segments
  | [], t, tfin, tr, _, hinv, hmono => trackerInv_finalize hinv hmono
  | c :: cs, t, tfin, tr, hstep, hinv, hmono =>
    trackerInv_run t0 cs c.t_end tfin _
      (by rw [update_step_sec]; exact hstep)
      (trackerInv_update hstep hinv hmono.1 hmono.2.1)
      hmono.2.2

/-- Claim C3. For every sequence of `update` calls at non-decreasing times with
`t_start ≤ t_end` in each call (and the non-negative step duration the
analysis pipeline always constructs the tracker with), followed by `finalize`
no earlier than the last `t_end`, the resulting segments all satisfy
`end_sec ≥ start_sec` and are ordered by `start_sec` and mutually
non-overlapping. -/
theorem alertTracker_segments_wellformed (threshold hold_sec step_sec : ℚ)
    (hstep : 0 ≤ step_sec) (t0 tfin : ℚ) (calls : List UpdateCall)
    (hmono : TimesMono t0 calls tfin) :
    SegsWF (((runUpdates (AlertTracker.init threshold hold_sec step_sec)
      calls).finalize tfin).segments) :=
  trackerInv_run t0 calls t0 tfin _ hstep
    (by simp [TrackerInv, AlertTracker.init, SortedFrom]) hmono

/-- Witness for `alertTracker_segments_wellformed` on a concrete run that
produces one alert segment. -/
theorem alertTracker_segments_wellformed_witness :
    SegsWF (((runUpdates (AlertTracker.init 1 1 1)
        [⟨0, 1, some 1, true⟩, ⟨1, 2, some 0, true⟩]).finalize 2).segments) :=
  alertTracker_segments_wellformed 1 1 1 (by norm_num) 0 2
    [⟨0, 1, some 1, true⟩, ⟨1, 2, some 0, true⟩] (by decide)

/-! ## Analysis orchestration (src/voiceguard/analysis.py) -/

/-- Python `str.lower()`, modelled characterwise (the strings compared in
analysis.py are plain ASCII backend/source-kind names). -/
def lowerStr (s : String) : String := String.mk (s.data.map Char.toLower)

/-- analysis.py lines 74–78: effective hold duration; in offline (`file`) mode
the hold is shortened to at most one hop so a single step can trigger. -/
def analyze_hold_sec (source_kind : String) (alert_hold_sec hop_sec : ℚ) : ℚ :=
  if lowerStr source_kind = "file" then min alert_hold_sec hop_sec else alert_hold_sec

/-- analysis.py lines 80–84: the `AlertTracker` built by `analyze_audio`. -/
def analyze_make_tracker (alert_threshold alert_hold_sec hop_sec : ℚ)
    (source_kind : String) : AlertTracker :=
  AlertTracker.init alert_threshold
    (analyze_hold_sec source_kind alert_hold_sec hop_sec) hop_sec

/-- analysis.py lines 87 and 95–99: the per-window alert update; `file` mode
uses the raw `p_fake`, live mode the smoothed `p_fake_smooth`; non-speech
windows update with `p = 0`. -/
def analyze_alert_step (source_kind : String) (tracker : AlertTracker)
    (t_start t_end : ℚ) (r : InferenceResult ℚ) : AlertTracker × Bool :=
  if r.is_speech then
    tracker.update t_start t_end
      (if lowerStr source_kind = "file" then r.p_fake else r.p_fake_smooth) true
  else
    tracker.update t_start t_end (some 0) false

/-- Claim C10. With `source_kind = "file"`, `analyze_audio` builds the tracker
with hold `min(alert_hold_sec, hop_sec)`, feeds the raw `p_fake` (not
`p_fake_smooth`) to the tracker, and consequently a single speech window with
`p_fake` at or above the threshold activates the alert. -/
theorem file_mode_single_window_alert
    (alert_threshold alert_hold_sec hop_sec t_start t_end pf : ℚ)
    (tracker : AlertTracker) (r : InferenceResult ℚ)
    (hsp : r.is_speech = true) (hpf : r.p_fake = some pf)
    (hthr : alert_threshold ≤ pf) :
    (analyze_make_tracker alert_threshold alert_hold_sec hop_sec "file").hold_sec
        = min alert_hold_sec hop_sec
    ∧ analyze_alert_step "file" tracker t_start t_end r
        = tracker.update t_start t_end r.p_fake true
    ∧ (analyze_alert_step "file"
        (analyze_make_tracker alert_threshold alert_hold_sec hop_sec "file")
        t_start t_end r).1.active = true
    ∧ (analyze_alert_step "file"
        (analyze_make_tracker alert_threshold alert_hold_sec hop_sec "file")
        t_start t_end r).2 = true := by
  have hfile : lowerStr "file" = "file" := by decide
  have hmk : analyze_make_tracker alert_threshold alert_hold_sec hop_sec "file"
      = AlertTracker.init alert_threshold (min alert_hold_sec hop_sec) hop_sec := by
    unfold analyze_make_tracker analyze_hold_sec
    rw [if_pos hfile]
  have hstep : analyze_alert_step "file" tracker t_start t_end r
      = tracker.update t_start t_end r.p_fake true := by
    unfold analyze_alert_step
    rw [if_pos hsp, if_pos hfile]
  have hupd : ((AlertTracker.init alert_threshold (min alert_hold_sec hop_sec)
      hop_sec).update t_start t_end r.p_fake true).1.active = true
      ∧ ((AlertTracker.init alert_threshold (min alert_hold_sec hop_sec)
      hop_sec).update t_start t_end r.p_fake true).2 = true := by
    simp [AlertTracker.update, AlertTracker.init, hpf, nanGe, hthr, min_le_right]
  refine ⟨by rw [hmk]; rfl, hstep, ?_, ?_⟩
  · rw [hmk]
    unfold analyze_alert_step
    rw [if_pos hsp, if_pos hfile]
    exact hupd.1
  · rw [hmk]
    unfold analyze_alert_step
    rw [if_pos hsp, if_pos hfile]
    exact hupd.2

/-- Witness for `file_mode_single_window_alert` at a concrete window result. -/
theorem file_mode_single_window_alert_witness :
    (analyze_alert_step "file" (analyze_make_tracker (4/5) 3 (1/4) "file")
      0 1 ⟨some (9/10), some (1/10), 1, true, [], []⟩).1.active = true :=
  (file_mode_single_window_alert (4/5) 3 (1/4) 0 1 (9/10)
    (analyze_make_tracker (4/5) 3 (1/4) "file")
    ⟨some (9/10), some (1/10), 1, true, [], []⟩ rfl rfl (by norm_num)).2.2.1

/-- Window metadata used by the whole-clip first-speech-window scan
(analysis.py lines 126–130). -/
structure WindowMeta where
  t_start : ℚ
  is_speech : Bool
deriving Repr, DecidableEq

/-- analysis.py lines 126–130: `t_start` of the first speech window,
defaulting to 0. -/
def first_speech_start : List WindowMeta → ℚ
  | [] => 0
  | win :: rest => if win.is_speech then win.t_start else first_speech_start rest

/-- Python `int()` truncation toward zero. -/
def qtrunc (q : ℚ) : ℤ :=
  if q < 0 then ⌈q⌉ else ⌊q⌋

/-- Outcome of the whole-clip re-inference `engine.infer_window(clip_audio)`
(analysis.py line 135): the call either raises or returns a result. -/
inductive ClipInference where
  | raises : ClipInference
  | result : InferenceResult ℚ → ClipInference
deriving DecidableEq

/-- analysis.py lines 121–139: the whole-clip score `p_clip`.  It starts as
the percentile score `p_p95`; a re-inference is attempted only for the `hf`
backend with at least one speech-window score, over the clip
`audio[start : start + clip_len]` (`start` from the first speech window,
`clip_len` capped at 12 s); any raise is swallowed and a non-speech or NaN
result is ignored. -/
def analyze_p_clip (backend : String) (p_vals : List ℚ) (p_p95 : ℚ)
    (windows : List WindowMeta) (audio_len sample_rate : ℤ)
    (clip : ClipInference) : ℚ :=
  if lowerStr backend = "hf" ∧ p_vals ≠ [] then
    match clip with
    | ClipInference.raises => p_p95
    | ClipInference.result r =>
      let start := qtrunc (first_speech_start windows * sample_rate)
      let clip_len := min (audio_len - start) (sample_rate * 12)
      if 0 < clip_len then
        match r.p_fake with
        | some v => if r.is_speech then v else p_p95
        | none => p_p95
      else p_p95
  else p_p95

/-- analysis.py line 141: `p_overall = max(p_p95, p_clip)`. -/
def analyze_p_overall (backend : String) (p_vals : List ℚ) (p_p95 : ℚ)
    (windows : List WindowMeta) (audio_len sample_rate : ℤ)
    (clip : ClipInference) : ℚ :=
  max p_p95 (analyze_p_clip backend p_vals p_p95 windows audio_len sample_rate clip)

/-- Claim C2. `p_fake_overall` is the maximum of the 95th-percentile score and
the whole-clip re-inference score when the re-inference runs and returns a
speech, non-NaN result; whenever the backend is not `hf`, there are no
speech-window scores, the re-inference raises, or it returns a non-speech or
NaN result, it equals the percentile score exactly; in all cases the
computation is a total function of the re-inference outcome, so no failure
propagates. -/
theorem p_fake_overall_spec (backend : String) (p_vals : List ℚ) (p_p95 : ℚ)
    (windows : List WindowMeta) (audio_len sample_rate : ℤ) :
    (∀ (r : InferenceResult ℚ) (v : ℚ), lowerStr backend = "hf" → p_vals ≠ [] →
      0 < min (audio_len - qtrunc (first_speech_start windows * sample_rate))
          (sample_rate * 12) →
      r.is_speech = true → r.p_fake = some v →
      analyze_p_overall backend p_vals p_p95 windows audio_len sample_rate
        (ClipInference.result r) = max p_p95 v)
    ∧ (¬ (lowerStr backend = "hf" ∧ p_vals ≠ []) →
      ∀ clip, analyze_p_overall backend p_vals p_p95 windows audio_len sample_rate
        clip = p_p95)
    ∧ (analyze_p_overall backend p_vals p_p95 windows audio_len sample_rate
        ClipInference.raises = p_p95)
    ∧ (∀ r : InferenceResult ℚ, r.is_speech = false ∨ r.p_fake = none →
      analyze_p_overall backend p_vals p_p95 windows audio_len sample_rate
        (ClipInference.result r) = p_p95) := by
  refine ⟨?_, ?_, ?_, ?_⟩
  · intro r v hb hp hlen hsp hpf
    unfold analyze_p_overall analyze_p_clip
    rw [if_pos ⟨hb, hp⟩]
    simp only [hpf, hsp, hlen, eq_self_iff_true, if_true]
  · intro hcond clip
    unfold analyze_p_overall analyze_p_clip
    rw [if_neg hcond, max_self]
  · unfold analyze_p_overall analyze_p_clip
    by_cases hcond : lowerStr backend = "hf" ∧ p_vals ≠ []
    · rw [if_pos hcond, max_self]
    · rw [if_neg hcond, max_self]
  · intro r hr
    unfold analyze_p_overall analyze_p_clip
    by_cases hcond : lowerStr backend = "hf" ∧ p_vals ≠ []
    · rw [if_pos hcond]
      rcases hr with hsp | hpf
      · cases hpfc : r.p_fake with
        | none => simp only [hpfc]; split <;> simp
        | some v => simp only [hpfc, hsp]; split <;> simp
      · simp only [hpf]; split <;> simp
    · rw [if_neg hcond, max_self]

/-- Witness for `p_fake_overall_spec`: a successful hf whole-clip re-inference
combines with the percentile score by `max`. -/
theorem p_fake_overall_spec_witness :
    analyze_p_overall "hf" [1/2] (1/2) [⟨0, true⟩] 16000 16000
      (ClipInference.result ⟨some (3/4), some (3/4), 1, true, [], []⟩)
      = max (1/2) (3/4) :=
  (p_fake_overall_spec "hf" [1/2] (1/2) [⟨0, true⟩] 16000 16000).1
    ⟨some (3/4), some (3/4), 1, true, [], []⟩ (3/4) (by decide) (by decide)
    (by norm_num [first_speech_start, qtrunc, min_def]) rfl rfl

/-! ## VAD (src/voiceguard/vad.py), over real numbers -/

/-- Term `mean(square(audio))`; `0` on empty input (unused there: the source
special-cases empty audio before computing it). -/
noncomputable def mean_square (audio : List ℝ) : ℝ :=
  (audio.map fun x => x ^ 2).sum / audio.length

/-- Term `sqrt(mean(square(audio)))`. -/
noncomputable def rms_val (audio : List ℝ) : ℝ :=
  Real.sqrt (mean_square audio)

/-- Function `rms_db` from vad.py on non-empty input: `20 * log10(rms + eps)` with
`eps = 1e-12`. -/
noncomputable def rms_db (audio : List ℝ) : ℝ :=
  20 * Real.logb 10 (rms_val audio + 1e-12)

/-- Function `is_speech_window` from vad.py: `rms_db(audio) > threshold_db`.  On empty
audio the source function `rms_db` returns `-inf`, so the comparison with any finite
threshold is false; that branch is encoded by the non-emptiness conjunct. -/
def is_speech_window (audio : List ℝ) (threshold_db : ℝ) : Prop :=
  audio ≠ [] ∧ rms_db audio > threshold_db

lemma logb_ten_eps : Real.logb 10 (1e-12 : ℝ) = -12 := by
  have h : (1e-12 : ℝ) = ((10 : ℝ) ^ (12 : ℕ))⁻¹ := by norm_num
  rw [h, Real.logb_inv, Real.logb_pow, Real.logb_self_eq_one (by norm_num)]
  norm_num

lemma mean_square_all_zero {audio : List ℝ} (hz : ∀ x ∈ audio, x = 0) :
    mean_square audio = 0 := by
  unfold mean_square
  have hsum : (audio.map fun x => x ^ 2).sum = 0 := by
    apply List.sum_eq_zero
    intro y hy
    obtain ⟨x, hx, rfl⟩ := List.mem_map.mp hy
    rw [hz x hx]
    norm_num
  rw [hsum, zero_div]

lemma rms_db_all_zero {audio : List ℝ} (hz : ∀ x ∈ audio, x = 0) :
    rms_db audio = -240 := by
  unfold rms_db rms_val
  rw [mean_square_all_zero hz, Real.sqrt_zero, zero_add, logb_ten_eps]
  norm_num

/-- Claim C6 counterexample. With `eps = 1e-12` the zero window has
`rms_db = 20*log10(1e-12) = -240`, so at the finite threshold `-241` the
all-zero window IS classified as speech, contradicting "non-speech for any
finite threshold". -/
theorem zero_window_is_speech_below_minus_240 :
    is_speech_window (List.replicate 3 (0 : ℝ)) (-241) := by
  refine ⟨by simp, ?_⟩
  rw [rms_db_all_zero (by simp)]
  norm_num

/-- Claim C6 (amended). A (possibly empty) all-zero window is classified as
non-speech for every threshold at or above `-240 = 20*log10(eps)` dB — in
particular for every threshold reachable on the configured
dBFS scale — but not for thresholds below `-240`. -/
theorem zero_window_not_speech (audio : List ℝ) (threshold_db : ℝ)
    (hz : ∀ x ∈ audio, x = 0) (hthr : -240 ≤ threshold_db) :
    ¬ is_speech_window audio threshold_db := by
  rintro ⟨hne, hgt⟩
  rw [rms_db_all_zero hz] at hgt
  linarith

/-- Witness for `zero_window_not_speech` at the default VAD threshold
`-45` dB. -/
theorem zero_window_not_speech_witness :
    ¬ is_speech_window (List.replicate 2 (0 : ℝ)) (-45) :=
  zero_window_not_speech (List.replicate 2 (0 : ℝ)) (-45) (by simp) (by norm_num)

/-- Claim C7 counterexample. A full-scale sampled sine (samples `0, 1, 0, -1`,
peak amplitude 1.0) has RMS `1/sqrt 2`, i.e. about `-3.01` dBFS, so at the
threshold `-1` dB — which is strictly below 0 dB — it is NOT classified as
speech, contradicting "speech for any threshold below 0 dB". -/
theorem sine_window_not_speech_at_minus_one :
    ¬ is_speech_window [0, 1, 0, -1] (-1 : ℝ) := by
  rintro ⟨-, hgt⟩
  have hms : mean_square [0, 1, 0, -1] = 1 / 2 := by
    unfold mean_square
    norm_num
  have hxpos : (0 : ℝ) < Real.sqrt (1 / 2) + 1e-12 := by positivity
  have hsq : Real.sqrt (1 / 2) ≤ 0.70711 := by
    rw [show (0.70711 : ℝ) = Real.sqrt (0.70711 ^ 2) from
      (Real.sqrt_sq (by norm_num)).symm]
    apply Real.sqrt_le_sqrt
    norm_num
  have hxle : Real.sqrt (1 / 2) + 1e-12 ≤ 0.7072 := by linarith
  have hpow : (Real.sqrt (1 / 2) + 1e-12) ^ (20 : ℕ) ≤
      ((10 : ℝ) ^ (-(1 / 20) : ℝ)) ^ (20 : ℕ) := by
    have h1 : (Real.sqrt (1 / 2) + 1e-12) ^ (20 : ℕ) ≤ (0.7072 : ℝ) ^ (20 : ℕ) :=
      pow_le_pow_left (le_of_lt hxpos) hxle 20
    have h2 : ((10 : ℝ) ^ (-(1 / 20) : ℝ)) ^ (20 : ℕ) = (10 : ℝ) ^ ((-1 : ℤ) : ℝ) := by
      rw [← Real.rpow_natCast ((10 : ℝ) ^ (-(1 / 20) : ℝ)) 20,
        ← Real.rpow_mul (by norm_num : (0 : ℝ) ≤ 10)]
      norm_num
    have h3 : (10 : ℝ) ^ ((-1 : ℤ) : ℝ) = 1 / 10 := by
      rw [Real.rpow_intCast]
      norm_num
    rw [h2, h3]
    calc (Real.sqrt (1 / 2) + 1e-12) ^ (20 : ℕ) ≤ (0.7072 : ℝ) ^ (20 : ℕ) := h1
    _ ≤ 1 / 10 := by norm_num
  have hxrp : Real.sqrt (1 / 2) + 1e-12 ≤ (10 : ℝ) ^ (-(1 / 20) : ℝ) :=
    le_of_pow_le_pow_left (by norm_num) (le_of_lt (Real.rpow_pos_of_pos
      (by norm_num) _)) hpow
  have hlogb : Real.logb 10 (Real.sqrt (1 / 2) + 1e-12) ≤ -(1 / 20) :=
    (Real.logb_le_iff_le_rpow (by norm_num) hxpos).mpr hxrp
  have : rms_db [0, 1, 0, -1] ≤ -1 := by
    unfold rms_db rms_val
    rw [hms]
    linarith
  linarith

/-- Claim C7 (amended). A non-empty window with mean squared amplitude `1/2` —
the RMS of a full-scale sine sampled over whole periods — is classified as
speech for every threshold strictly below `20*log10(1/sqrt 2)` (about
`-3.01` dB), not below 0 dB as claimed. -/
theorem full_scale_sine_window_is_speech (audio : List ℝ) (threshold_db : ℝ)
    (hne : audio ≠ []) (hms : mean_square audio = 1 / 2)
    (hthr : threshold_db < 20 * Real.logb 10 (Real.sqrt (1 / 2))) :
    is_speech_window audio threshold_db := by
  refine ⟨hne, ?_⟩
  unfold rms_db rms_val
  rw [hms]
  have hlt : Real.logb 10 (Real.sqrt (1 / 2)) <
      Real.logb 10 (Real.sqrt (1 / 2) + 1e-12) :=
    Real.logb_lt_logb (by norm_num) (Real.sqrt_pos.mpr (by norm_num)) (by norm_num)
  linarith

/-- Witness for `full_scale_sine_window_is_speech` on the sampled sine
`[0, 1, 0, -1]` at threshold `-4` dB. -/
theorem full_scale_sine_window_is_speech_witness :
    is_speech_window [0, 1, 0, -1] (-4 : ℝ) := by
  apply full_scale_sine_window_is_speech [0, 1, 0, -1] (-4) (by simp)
  · unfold mean_square
    norm_num
  · have hkey : (10 : ℝ) ^ (-(1 / 5) : ℝ) < Real.sqrt (1 / 2) := by
      have h5 : ((10 : ℝ) ^ (-(1 / 5) : ℝ)) ^ (5 : ℕ) = 1 / 10 := by
        rw [← Real.rpow_natCast ((10 : ℝ) ^ (-(1 / 5) : ℝ)) 5,
          ← Real.rpow_mul (by norm_num : (0 : ℝ) ≤ 10)]
        norm_num
      have hs5 : (Real.sqrt (1 / 2)) ^ (5 : ℕ) =
          (1 / 4) * Real.sqrt (1 / 2) := by
        have hexp : (Real.sqrt (1 / 2)) ^ (5 : ℕ) =
            ((Real.sqrt (1 / 2)) ^ (2 : ℕ)) ^ (2 : ℕ) * Real.sqrt (1 / 2) := by
          ring
        rw [hexp, Real.sq_sqrt (by norm_num : (0 : ℝ) ≤ 1 / 2)]
        norm_num
      have hq : (2 / 5 : ℝ) < Real.sqrt (1 / 2) := by
        rw [show (1 / 2 : ℝ) = (1 / 2 : ℝ) from rfl] at *
        have := (Real.lt_sqrt (by norm_num : (0 : ℝ) ≤ 2 / 5)).mpr
          (by norm_num : ((2 : ℝ) / 5) ^ 2 < 1 / 2)
        exact this
      apply lt_of_pow_lt_pow_left 5 (Real.sqrt_nonneg _)
      rw [h5, hs5]
      nlinarith [Real.sqrt_nonneg (1 / 2 : ℝ)]
    have : -(1 / 5 : ℝ) < Real.logb 10 (Real.sqrt (1 / 2)) :=
      (Real.lt_logb_iff_rpow_lt (by norm_num)
        (Real.sqrt_pos.mpr (by norm_num))).mpr hkey
    linarith

/-! ## Heuristic backend (src/voiceguard/inference/heuristic.py) -/

/-- Function `_clamp` from heuristic.py. -/
noncomputable def clampR (x lo hi : ℝ) : ℝ := min (max x lo) hi

/-- Function `_sigmoid` from heuristic.py. -/
noncomputable def sigmoid (x : ℝ) : ℝ := 1 / (1 + Real.exp (-x))

/-- Lookup `indicators.get(key, 0.0)` over the indicator mapping. -/
def getIndicator (indicators : List (String × ℝ)) (key : String) : ℝ :=
  (indicators.lookup key).getD 0

/-- Function `heuristic_reasons` from heuristic.py (advisory strings only). -/
noncomputable def heuristic_reasons (indicators : List (String × ℝ)) : List String :=
  let hf_ratio := getIndicator indicators "hf_energy_ratio"
  let rolloff_hz := getIndicator indicators "spectral_rolloff_hz"
  let flatness := getIndicator indicators "spectral_flatness"
  (if hf_ratio < 0.02 then ["низкая доля энергии в ВЧ (возможен срез/кодек/TTS)"]
    else []) ++
  (if rolloff_hz < 3200 then ["низкий spectral roll-off (возможен срез ВЧ)"]
    else []) ++
  (if flatness < 0.08 then ["низкая spectral flatness (слишком стерильно/тонально)"]
    else [])

/-- Function `heuristic_p_fake` from heuristic.py: weighted deficiency scores
(0.50/0.35/0.15) through a sigmoid centred at 0.35 with steepness 7. -/
noncomputable def heuristic_p_fake (indicators : List (String × ℝ)) :
    ℝ × List String :=
  let hf_ratio := getIndicator indicators "hf_energy_ratio"
  let rolloff_hz := getIndicator indicators "spectral_rolloff_hz"
  let flatness := getIndicator indicators "spectral_flatness"
  let cutoff_score := clampR ((0.06 - hf_ratio) / 0.06) 0 1
  let rolloff_score := clampR ((4200 - rolloff_hz) / 4200) 0 1
  let flat_score := clampR ((0.12 - flatness) / 0.12) 0 1
  let raw := 0.50 * cutoff_score + 0.35 * rolloff_score + 0.15 * flat_score
  let p_fake := sigmoid ((raw - 0.35) * 7.0)
  (clampR p_fake 0 1, heuristic_reasons indicators)

lemma heuristic_p_fake_val (indicators : List (String × ℝ)) :
    (heuristic_p_fake indicators).1 =
      clampR (sigmoid
        ((0.50 * clampR ((0.06 - getIndicator indicators "hf_energy_ratio") / 0.06) 0 1
          + 0.35 * clampR ((4200 - getIndicator indicators "spectral_rolloff_hz") / 4200) 0 1
          + 0.15 * clampR ((0.12 - getIndicator indicators "spectral_flatness") / 0.12) 0 1
          - 0.35) * 7.0)) 0 1 := rfl

/-- Claim C8. The heuristic score is below 0.3 on healthy indicators
`(0.10, 5000, 0.20)` and above 0.7 on suspicious indicators
`(0.0, 1000, 0.02)`. -/
theorem heuristic_p_fake_healthy_vs_suspicious :
    (heuristic_p_fake [("hf_energy_ratio", 0.10), ("spectral_rolloff_hz", 5000),
      ("spectral_flatness", 0.20)]).1 < 0.3
    ∧ (heuristic_p_fake [("hf_energy_ratio", 0.0), ("spectral_rolloff_hz", 1000),
      ("spectral_flatness", 0.02)]).1 > 0.7 := by
  constructor
  · rw [heuristic_p_fake_val]
    have e1 : getIndicator [("hf_energy_ratio", (0.10 : ℝ)),
        ("spectral_rolloff_hz", 5000), ("spectral_flatness", 0.20)]
        "hf_energy_ratio" = 0.10 := by simp [getIndicator]
    have e2 : getIndicator [("hf_energy_ratio", (0.10 : ℝ)),
        ("spectral_rolloff_hz", 5000), ("spectral_flatness", 0.20)]
        "spectral_rolloff_hz" = 5000 := by rfl
    have e3 : getIndicator [("hf_energy_ratio", (0.10 : ℝ)),
        ("spectral_rolloff_hz", 5000), ("spectral_flatness", 0.20)]
        "spectral_flatness" = 0.20 := by rfl
    rw [e1, e2, e3]
    have c1 : clampR (((0.06 : ℝ) - 0.10) / 0.06) 0 1 = 0 := by
      unfold clampR
      rw [max_eq_right (by norm_num), min_eq_left (by norm_num)]
    have c2 : clampR (((4200 : ℝ) - 5000) / 4200) 0 1 = 0 := by
      unfold clampR
      rw [max_eq_right (by norm_num), min_eq_left (by norm_num)]
    have c3 : clampR (((0.12 : ℝ) - 0.20) / 0.12) 0 1 = 0 := by
      unfold clampR
      rw [max_eq_right (by norm_num), min_eq_left (by norm_num)]
    rw [c1, c2, c3]
    have harg : ((0.50 * 0 + 0.35 * 0 + 0.15 * 0 - 0.35) * 7.0 : ℝ) = -2.45 := by
      norm_num
    rw [harg]
    have hexp : (3.45 : ℝ) ≤ Real.exp 2.45 := by
      have := Real.add_one_le_exp (2.45 : ℝ)
      linarith
    have hpos : (0 : ℝ) < sigmoid (-2.45) := by
      unfold sigmoid
      positivity
    have hlt : sigmoid (-2.45) < 0.3 := by
      unfold sigmoid
      rw [neg_neg, div_lt_iff (by positivity)]
      nlinarith [Real.exp_pos (2.45 : ℝ)]
    unfold clampR
    calc min (max (sigmoid (-2.45)) 0) 1 ≤ max (sigmoid (-2.45)) 0 :=
        min_le_left _ _
    _ = sigmoid (-2.45) := max_eq_left (le_of_lt hpos)
    _ < 0.3 := hlt
  · rw [heuristic_p_fake_val]
    have e1 : getIndicator [("hf_energy_ratio", (0.0 : ℝ)),
        ("spectral_rolloff_hz", 1000), ("spectral_flatness", 0.02)]
        "hf_energy_ratio" = 0.0 := by simp [getIndicator]
    have e2 : getIndicator [("hf_energy_ratio", (0.0 : ℝ)),
        ("spectral_rolloff_hz", 1000), ("spectral_flatness", 0.02)]
        "spectral_rolloff_hz" = 1000 := by rfl
    have e3 : getIndicator [("hf_energy_ratio", (0.0 : ℝ)),
        ("spectral_rolloff_hz", 1000), ("spectral_flatness", 0.02)]
        "spectral_flatness" = 0.02 := by rfl
    rw [e1, e2, e3]
    have c1 : clampR (((0.06 : ℝ) - 0.0) / 0.06) 0 1 = 1 := by
      unfold clampR
      rw [max_eq_left (by norm_num), min_eq_right (by norm_num)]
    have c2 : clampR (((4200 : ℝ) - 1000) / 4200) 0 1 = 16 / 21 := by
      unfold clampR
      rw [max_eq_left (by norm_num), min_eq_left (by norm_num)]
      norm_num
    have c3 : clampR (((0.12 : ℝ) - 0.02) / 0.12) 0 1 = 5 / 6 := by
      unfold clampR
      rw [max_eq_left (by norm_num), min_eq_left (by norm_num)]
      norm_num
    rw [c1, c2, c3]
    have harg : ((0.50 * 1 + 0.35 * (16 / 21) + 0.15 * (5 / 6) - 0.35) * 7.0 : ℝ)
        = 91 / 24 := by norm_num
    rw [harg]
    have hexp : (115 / 24 : ℝ) ≤ Real.exp (91 / 24) := by
      have := Real.add_one_le_exp ((91 : ℝ) / 24)
      linarith
    have hinv : Real.exp (-(91 / 24)) ≤ 24 / 115 := by
      rw [Real.exp_neg]
      have h1 : ((115 / 24 : ℝ))⁻¹ = 24 / 115 := by norm_num
      rw [← h1]
      exact inv_le_inv_of_le (by norm_num) hexp
    have hgt : (0.7 : ℝ) < sigmoid (91 / 24) := by
      unfold sigmoid
      rw [lt_div_iff (by positivity)]
      nlinarith [Real.exp_pos (-(91 / 24) : ℝ)]
    have hone : sigmoid (91 / 24) ≤ 1 := by
      unfold sigmoid
      rw [div_le_one (by positivity)]
      nlinarith [Real.exp_pos (-(91 / 24) : ℝ)]
    unfold clampR
    rw [gt_iff_lt, lt_min_iff]
    constructor
    · calc (0.7 : ℝ) < sigmoid (91 / 24) := hgt
      _ ≤ max (sigmoid (91 / 24)) 0 := le_max_left _ _
    · norm_num

/-! ## Resampling (src/voiceguard/dsp/resample.py) -/

/-- Function `resample_audio` from resample.py.  The float32 cast is the identity in
the real-number model; the scipy `resample_poly` kernel on the
rate-conversion path is the abstract parameter `resample_poly`, applied with
`up = target_sr / gcd` and `down = orig_sr / gcd` as in the source (sample
rates are positive in every call site). -/
def resample_audio (resample_poly : List ℝ → ℕ → ℕ → List ℝ)
    (audio : List ℝ) (orig_sr target_sr : ℤ) : List ℝ :=
  if orig_sr = target_sr then audio
  else
    let g := Int.gcd orig_sr target_sr
    let up := target_sr.natAbs / g
    let down := orig_sr.natAbs / g
    if audio.length = 0 then audio
    else resample_poly audio up down

/-- Claim C9. Resampling with `orig_sr = target_sr` is the identity, element for
element, for every input signal and every polyphase kernel. -/
theorem resample_audio_identity (resample_poly : List ℝ → ℕ → ℕ → List ℝ)
    (audio : List ℝ) (sr : ℤ) :
    resample_audio resample_poly audio sr sr = audio := by
  unfold resample_audio
  rw [if_pos rfl]

/-! ## Preprocessing (src/voiceguard/preprocess.py) -/

/-- Arithmetic mean (`np.mean`). -/
noncomputable def listMean (audio : List ℝ) : ℝ := audio.sum / audio.length

/-- Function `normalize_audio` from preprocess.py: subtract the mean (non-empty input
only), then rescale the peak to `peak`; if the peak magnitude is `<= 0`
(silent input) the centred signal is returned unscaled.  `np.max(np.abs(x))`
is the fold of `max` over the absolute values (they are non-negative, so the
fold base 0 is neutral). -/
noncomputable def normalize_audio (audio : List ℝ) (peak : ℝ) : List ℝ :=
  let centered := if audio.length = 0 then audio
    else audio.map (fun x => x - listMean audio)
  let max_abs := if audio.length = 0 then (0 : ℝ)
    else (centered.map (fun x => |x|)).foldr max 0
  if max_abs ≤ 0 then centered
  else centered.map (fun x => x / max_abs * peak)

/-- Function `preprocess_audio` from preprocess.py for 1-D (mono) input — `to_mono`
is the identity there. -/
noncomputable def preprocess_audio (resample_poly : List ℝ → ℕ → ℕ → List ℝ)
    (audio : List ℝ) (orig_sr target_sr : ℤ) (normalize : Bool) : List ℝ :=
  let audio_rs := resample_audio resample_poly audio orig_sr target_sr
  if normalize then normalize_audio audio_rs 0.99 else audio_rs

/-! ## Feature extraction (src/voiceguard/features.py) -/

/-- Function `zero_crossing_rate` from features.py: fraction of adjacent sign flips;
`np.signbit` is modelled as `x < 0` (reals carry no negative zero). -/
noncomputable def zero_crossing_rate (audio : List ℝ) : ℝ :=
  if audio.length < 2 then 0
  else (((audio.zip audio.tail).filter
      (fun ab => decide (ab.1 < 0) ≠ decide (ab.2 < 0))).length : ℝ) /
    ((audio.length : ℝ) - 1)

/-- Function `extract_indicators` from features.py.  The FFT-based
`spectral_indicators` entries are abstracted as the parameter `spectral`;
`rms_db` is inserted first, so a lookup of `"rms_db"` always finds the value
computed here.  (On empty input the source stores `-inf`; the engine reads
that value only through the VAD comparison, which the embedding performs via
`is_speech_window`.) -/
noncomputable def extract_indicators (spectral : List ℝ → List (String × ℝ))
    (audio : List ℝ) : List (String × ℝ) :=
  ("rms_db", rms_db audio) :: ("zcr", zero_crossing_rate audio) :: spectral audio

/-! ## Engine (src/voiceguard/engine.py) -/

/-- Abstract `AudioEnhancer`: `process noise window = (enhanced, noise')` and
`update_noise noise window = noise'`.  Only its existence matters for the
engine claims. -/
structure Enhancer where
  process : List ℝ → List ℝ → List ℝ × List ℝ
  update_noise : List ℝ → List ℝ → List ℝ

/-- Mutable engine state: EMA smoother and enhancer noise profile. -/
structure EngineState where
  ema : Option ℝ
  noise : List ℝ

open scoped Classical in
/-- Method `VoiceGuardEngine.infer_window` from engine.py.  Abstractions: the
polyphase kernel, the spectral indicators, the ONNX pipeline
(log-mel + model, consuming the peak-normalized window) and the HF classifier
(returning `(p_fake, model_confidence)`) are function parameters; a `none`
model means the backend object was never initialised, in which case the
source raises (`Except.error` here).  The VAD gate compares the `rms_db`
entry of the raw indicators with the threshold; `is_speech_window` performs
exactly that comparison (including the `-inf`-on-empty behaviour). -/
noncomputable def infer_window (vad_threshold ema_alpha : ℝ) (backend : String)
    (onnx_predict : Option (List ℝ → ℝ))
    (hf_predict : Option (List ℝ → ℝ × ℝ))
    (spectral : List ℝ → List (String × ℝ))
    (enhancer : Option Enhancer)
    (resample_poly : List ℝ → ℕ → ℕ → List ℝ)
    (orig_sr target_sr : ℤ)
    (st : EngineState) (audio : List ℝ) :
    Except String (InferenceResult ℝ × EngineState) :=
  let audio_rs := preprocess_audio resample_poly audio orig_sr target_sr false
  let raw_indicators := extract_indicators spectral audio_rs
  if ¬ is_speech_window audio_rs vad_threshold then
    let noise1 := match enhancer with
      | some e => e.update_noise st.noise audio_rs
      | none => st.noise
    Except.ok (⟨none, none, 0, false, raw_indicators, []⟩, ⟨st.ema, noise1⟩)
  else
    let processed := match enhancer with
      | some e => e.process st.noise audio_rs
      | none => (audio_rs, st.noise)
    let audio_proc := processed.1
    let noise1 := processed.2
    let indicators := extract_indicators spectral audio_proc
    let step : Except String (ℝ × List String × ℝ) :=
      if backend = "onnx" then
        match onnx_predict with
        | none => Except.error "model.backend=onnx but ONNX model is not initialized."
        | some predict =>
          let p := predict (normalize_audio audio_proc 0.99)
          Except.ok (p, heuristic_reasons indicators, |p - 0.5| * 2)
      else if backend = "hf" then
        match hf_predict with
        | none => Except.error "model.backend=hf but HF model is not initialized."
        | some predict =>
          let pr := predict audio_proc
          Except.ok (pr.1, heuristic_reasons indicators, pr.2)
      else
        let pr := heuristic_p_fake indicators
        Except.ok (pr.1, pr.2, |pr.1 - 0.5| * 2)
    match step with
    | Except.error e => Except.error e
    | Except.ok (p_fake, reasons, model_confidence) =>
      let ema1 := match st.ema with
        | none => p_fake
        | some e => ema_alpha * p_fake + (1 - ema_alpha) * e
      let p_smooth := ema1
      let quality := clampR ((rms_db audio_rs - vad_threshold) / 30) 0 1
      let conf := clampR model_confidence 0 1
      let confidence := clampR (0.15 + 0.85 * (0.60 * quality + 0.40 * conf)) 0 1
      Except.ok (⟨some (clampR p_fake 0 1), some (clampR p_smooth 0 1), confidence,
        true, indicators, reasons⟩, ⟨some ema1, noise1⟩)

/-- Claim C5. For every window the VAD gate classifies as non-speech,
`infer_window` returns — without any `Except.error` — the sentinel result
(`p_fake` and `p_fake_smooth` the NaN sentinel, `confidence = 0`,
`is_speech = false`, raw indicators attached, no reasons), leaves the EMA
untouched (only the enhancer noise profile is updated), and invokes no
inference backend: the outcome is identical for every backend selection and
every model. -/
theorem infer_window_nonspeech (vad_threshold ema_alpha : ℝ) (backend : String)
    (onnx_predict : Option (List ℝ → ℝ)) (hf_predict : Option (List ℝ → ℝ × ℝ))
    (spectral : List ℝ → List (String × ℝ)) (enhancer : Option Enhancer)
    (resample_poly : List ℝ → ℕ → ℕ → List ℝ) (orig_sr target_sr : ℤ)
    (st : EngineState) (audio : List ℝ)
    (h : ¬ is_speech_window
      (preprocess_audio resample_poly audio orig_sr target_sr false)
      vad_threshold) :
    infer_window vad_threshold ema_alpha backend onnx_predict hf_predict spectral
        enhancer resample_poly orig_sr target_sr st audio =
      Except.ok
        (⟨none, none, 0, false,
          extract_indicators spectral
            (preprocess_audio resample_poly audio orig_sr target_sr false), []⟩,
          ⟨st.ema,
            match enhancer with
            | some e => e.update_noise st.noise
                (preprocess_audio resample_poly audio orig_sr target_sr false)
            | none => st.noise⟩)
    ∧ ∀ (backend2 : String) (onnx2 : Option (List ℝ → ℝ))
        (hf2 : Option (List ℝ → ℝ × ℝ)),
        infer_window vad_threshold ema_alpha backend2 onnx2 hf2 spectral enhancer
          resample_poly orig_sr target_sr st audio =
        infer_window vad_threshold ema_alpha backend onnx_predict hf_predict
          spectral enhancer resample_poly orig_sr target_sr st audio := by
  constructor
  · unfold infer_window
    rw [if_pos h]
  · intro backend2 onnx2 hf2
    unfold infer_window
    rw [if_pos h, if_pos h]

/-- Witness for `infer_window_nonspeech`: a zero window at VAD threshold 0
with the `hf` backend selected but no model loaded still returns the sentinel
result without an error. -/
theorem infer_window_nonspeech_witness :
    infer_window 0 (1/2) "hf" none none (fun _ => []) none (fun a _ _ => a)
        16000 16000 ⟨none, []⟩ [0, 0, 0] =
      Except.ok
        (⟨none, none, 0, false,
          extract_indicators (fun _ => [])
            (preprocess_audio (fun a _ _ => a) [0, 0, 0] 16000 16000 false), []⟩,
          ⟨none, []⟩) := by
  have hpre : preprocess_audio (fun a _ _ => a) [0, 0, 0] 16000 16000 false
      = [0, 0, 0] := by
    unfold preprocess_audio resample_audio
    simp
  have h : ¬ is_speech_window
      (preprocess_audio (fun a _ _ => a) [0, 0, 0] 16000 16000 false) 0 := by
    rw [hpre]
    rintro ⟨-, hgt⟩
    have hz : ∀ x ∈ ([0, 0, 0] : List ℝ), x = 0 := by
      intro x hx
      simp at hx
      exact hx
    rw [rms_db_all_zero hz] at hgt
    norm_num at hgt
  exact (infer_window_nonspeech 0 (1/2) "hf" none none (fun _ => []) none
    (fun a _ _ => a) 16000 16000 ⟨none, []⟩ [0, 0, 0] h).1
